import Mathlib

/-!
Verification of the `MaybeTaintedLocals` dataflow analysis (src/analysis.rs).

The analysis tracks which MIR locals may carry a taint.  Its abstract state
is a bit set of locals (`BitSet<Local>`); the transfer function inspects each
statement and terminator and issues `gen`/`kill` requests against the state.
We embed the state as a `Finset ℕ` (set of local indices) and the transfer
function as pure state-passing functions, applying each gen/kill immediately
to the evolving state, which is how the reference test exercises it (the
`GenKill` sink in the test is the bit set itself).
-/

namespace Taint

/-- MIR local variable index (`rustc_middle::mir::Local`): a dense integer. -/
abbrev Local := ℕ

/-- A place: a base local plus a (possibly empty) list of projection
elements (field access, deref, index, ...).  The analysis only ever reads
`place.«local»`; projections are carried so that we can state that fact. -/
structure Place where
  «local» : Local
  projection : List ℕ
deriving DecidableEq, Repr

/-- An operand of an rvalue: `Operand::Copy`, `Operand::Move`, or
`Operand::Constant`.  The constant payload is abstracted to a number. -/
inductive Operand where
  | Copy (place : Place)
  | Move (place : Place)
  | Constant (val : ℕ)
deriving DecidableEq, Repr

/-- The rvalue shapes of `rustc_middle::mir::Rvalue` that the transfer
function distinguishes, plus representatives of the shapes it does not
handle (reference-taking, cast, aggregate build), which in the source all
fall into the wildcard arm of `handle_assignment`.  Operator payloads are
abstracted to numbers (the match never inspects them). -/
inductive Rvalue where
  | Use (op : Operand)
  | BinaryOp (op : ℕ) (o1 o2 : Operand)
  | UnaryOp (op : ℕ) (o : Operand)
  | Ref (place : Place)
  | Cast (op : Operand)
  | Aggregate (ops : List Operand)
deriving DecidableEq, Repr

/-- Statement kinds: an assignment, or representatives of the
non-assignment kinds (`visit_statement` only looks for `Assign`). -/
inductive StatementKind where
  | Assign (target : Place) (rval : Rvalue)
  | StorageLive (l : Local)
  | StorageDead (l : Local)
  | Nop
deriving DecidableEq, Repr

/-- Terminator kinds matched (all as no-ops) by `visit_terminator`:
`Goto`, `SwitchInt`, `Return`, `Call`, `Assert`, and representatives of the
kinds that fall into its wildcard arm. -/
inductive TerminatorKind where
  | Goto (target : ℕ)
  | SwitchInt (discr : Operand) (targets : List ℕ)
  | Return
  | Call (func : Operand) (args : List Operand) (destination : Place) (target : Option ℕ)
  | Assert (cond : Operand) (expected : Bool) (target : ℕ)
  | Drop (place : Place) (target : ℕ)
  | Unreachable
deriving DecidableEq, Repr

/-- The abstract state: the set of possibly-tainted locals
(`BitSet<Local>`). -/
abbrev Domain := Finset Local

/-- `GenKill::gen`: mark a local as possibly tainted. -/
def gen (s : Domain) (l : Local) : Domain := insert l s

/-- `GenKill::kill`: mark a local as untainted. -/
def kill (s : Domain) (l : Local) : Domain := s.erase l

/-- `TransferFunction::is_tainted`: membership query against the current
state (in the source, via the `get_set` reinterpretation of the sink). -/
def is_tainted (s : Domain) (l : Local) : Bool := decide (l ∈ s)

/-- `AnalysisDomain::bottom_value`: every local starts untainted. -/
def bottom_value : Domain := ∅

/-- `TransferFunction::propagate`: if `old` is currently tainted, gen `new`,
else kill `new`. -/
def propagate (s : Domain) (old new : Local) : Domain :=
  if is_tainted s old then gen s new else kill s new

/-- `TransferFunction::handle_assignment`: the rvalue-shape rule table.
Each arm mirrors the corresponding arm of the Rust `match`. -/
def handle_assignment (s : Domain) (target : Place) (rval : Rvalue) : Domain :=
  match rval with
  | .Use (.Constant _) => kill s target.«local»
  | .Use (.Copy f) | .Use (.Move f) => propagate s f.«local» target.«local»
  | .BinaryOp _ o1 o2 =>
    match o1, o2 with
    | .Constant _, .Constant _ => kill s target.«local»
    | .Copy a, .Copy b | .Copy a, .Move b | .Move a, .Copy b | .Move a, .Move b =>
      if is_tainted s a.«local» || is_tainted s b.«local» then gen s target.«local»
      else kill s target.«local»
    | .Copy p, .Constant _ | .Move p, .Constant _
    | .Constant _, .Copy p | .Constant _, .Move p =>
      if is_tainted s p.«local» then gen s target.«local» else kill s target.«local»
  | .UnaryOp _ (.Move p) | .UnaryOp _ (.Copy p) => propagate s p.«local» target.«local»
  | _ => s

/-- `Visitor::visit_statement`: dispatch assignments to
`handle_assignment`; every other statement kind is untouched. -/
def visit_statement (s : Domain) (st : StatementKind) : Domain :=
  match st with
  | .Assign target rval => handle_assignment s target rval
  | _ => s

/-- `Visitor::visit_terminator`: every terminator kind, the explicitly
matched ones and the wildcard alike, leaves the state unchanged. -/
def visit_terminator (s : Domain) (t : TerminatorKind) : Domain :=
  match t with
  | .Goto _ => s
  | .SwitchInt _ _ => s
  | .Return => s
  | .Call _ _ _ _ => s
  | .Assert _ _ _ => s
  | _ => s

/-- `GenKillAnalysis::call_return_effect`: the body is `todo!()`, i.e. it
panics unconditionally ("not yet implemented") before touching the state.
We model the panic as an `Except.error`. -/
def call_return_effect (_s : Domain) (_block : ℕ) (_func : Operand)
    (_args : List Operand) (_return_place : Place) : Except String Domain :=
  Except.error "not yet implemented"

/-- Whether an operand is a local read whose local is currently tainted
(constants are never tainted). -/
def operand_tainted (s : Domain) (o : Operand) : Bool :=
  match o with
  | .Copy p | .Move p => is_tainted s p.«local»
  | .Constant _ => false

/-- A place with its projections stripped: only the base local remains. -/
def base (p : Place) : Place := ⟨p.«local», []⟩

/-- Strip projections from the place under an operand, if any. -/
def operand_base (o : Operand) : Operand :=
  match o with
  | .Copy p => .Copy (base p)
  | .Move p => .Move (base p)
  | .Constant c => .Constant c

/-- Strip projections from every place occurring in a handled rvalue. -/
def rvalue_base (rv : Rvalue) : Rvalue :=
  match rv with
  | .Use o => .Use (operand_base o)
  | .BinaryOp op o1 o2 => .BinaryOp op (operand_base o1) (operand_base o2)
  | .UnaryOp op o => .UnaryOp op (operand_base o)
  | rv => rv

/-- Whether an rvalue shape is one of the three the rule table handles. -/
def handled_rvalue (rv : Rvalue) : Bool :=
  match rv with
  | .Use _ => true
  | .BinaryOp _ _ _ => true
  | .UnaryOp _ _ => true
  | _ => false

/-- Whether a statement is an assignment. -/
def is_assign (st : StatementKind) : Bool :=
  match st with
  | .Assign _ _ => true
  | _ => false

/-- Membership after `propagate`: the new target holds the old source's
taint; every other local is untouched. -/
lemma mem_propagate (s : Domain) (old nw l : Local) :
    l ∈ propagate s old nw ↔ if l = nw then old ∈ s else l ∈ s := by
  unfold propagate gen kill is_tainted
  by_cases h : old ∈ s <;> by_cases hl : l = nw <;>
    simp [h, hl, Finset.mem_insert, Finset.mem_erase]

/-- Membership in `if c then gen s t else kill s t` for the gen/kill target
itself is exactly the condition. -/
lemma mem_gen_kill_ite (s : Domain) (c : Bool) (t : Local) :
    (t ∈ if c then gen s t else kill s t) ↔ c = true := by
  cases c <;> simp [gen, kill]

/-- C1: for every state, assigning `target := copy(source)` or
`target := move(source)` sets the target's taint bit iff the source's bit is
currently set (clearing it otherwise), and leaves the source's own bit
unchanged for both copy and move. -/
theorem assign_copy_move_propagates_taint (s : Domain) (target f : Place) :
    (target.«local» ∈ handle_assignment s target (.Use (.Copy f)) ↔ f.«local» ∈ s) ∧
    (f.«local» ∈ handle_assignment s target (.Use (.Copy f)) ↔ f.«local» ∈ s) ∧
    (target.«local» ∈ handle_assignment s target (.Use (.Move f)) ↔ f.«local» ∈ s) ∧
    (f.«local» ∈ handle_assignment s target (.Use (.Move f)) ↔ f.«local» ∈ s) := by
  simp only [handle_assignment, mem_propagate]
  refine ⟨by simp, ?_, by simp, ?_⟩ <;>
    by_cases h : f.«local» = target.«local» <;> simp [h]

/-- C2: for every state, `target := BinaryOp(op, o1, o2)` leaves the
target's bit set iff at least one operand is a local (copy or move) whose
bit is currently set; in particular when both operands are constants the
bit is cleared. -/
theorem binary_op_taint_union (s : Domain) (target : Place) (op : ℕ) (o1 o2 : Operand) :
    target.«local» ∈ handle_assignment s target (.BinaryOp op o1 o2) ↔
      (operand_tainted s o1 || operand_tainted s o2) = true := by
  cases o1 <;> cases o2 <;>
    · simp only [handle_assignment, operand_tainted, gen, kill]
      first
      | (split <;> simp_all)
      | simp

/-- C3: for every prior state (the target's prior bit included), assigning a
local from a constant or from a binary operation over two constant operands
removes that local from the tainted set. -/
theorem constant_assign_cleans (s : Domain) (target : Place) (op c1 c2 : ℕ) :
    target.«local» ∉ handle_assignment s target (.Use (.Constant c1)) ∧
    target.«local» ∉ handle_assignment s target (.BinaryOp op (.Constant c1) (.Constant c2)) := by
  constructor <;> simp [handle_assignment, kill]

/-- C4: for every block, callee, argument list, return place and state, the
call-return effect hook fails loudly with the unconditional "not yet
implemented" panic signal of `todo!()`; it never returns (a fortiori never
silently modifies) an abstract state. -/
theorem call_return_effect_fails_loudly (s : Domain) (block : ℕ) (func : Operand)
    (args : List Operand) (ret : Place) :
    call_return_effect s block func args ret = Except.error "not yet implemented" ∧
    (call_return_effect s block func args ret).isOk = false :=
  ⟨rfl, rfl⟩

/-- C5: for every terminator kind (goto, switch, return, call, assert, and
the wildcard rest) and every state, the terminator transfer effect leaves
the state exactly as it was. -/
theorem terminator_effect_is_noop (s : Domain) (t : TerminatorKind) :
    visit_terminator s t = s := by
  cases t <;> rfl

/-- C6: for every state, an assignment whose rvalue shape is not Use,
BinaryOp or UnaryOp leaves the state completely unchanged, and so does
every non-assignment statement. -/
theorem unhandled_statement_is_noop (s : Domain) :
    (∀ (target : Place) (rv : Rvalue), handled_rvalue rv = false →
      handle_assignment s target rv = s) ∧
    (∀ st : StatementKind, is_assign st = false → visit_statement s st = s) := by
  constructor
  · intro target rv h
    cases rv <;> simp_all [handled_rvalue, handle_assignment]
  · intro st h
    cases st <;> simp_all [is_assign, visit_statement]

/-- Witness for C6: a reference-taking assignment and a nop statement,
evaluated on the concrete state `{0}`. -/
theorem unhandled_statement_is_noop_witness :
    handle_assignment {0} ⟨1, [0]⟩ (Rvalue.Ref ⟨0, []⟩) = {0} ∧
    visit_statement {0} StatementKind.Nop = {0} :=
  ⟨(unhandled_statement_is_noop {0}).1 ⟨1, [0]⟩ (Rvalue.Ref ⟨0, []⟩) rfl,
   (unhandled_statement_is_noop {0}).2 StatementKind.Nop rfl⟩

/-- C7: for every state, `target := UnaryOp(op, local)` with a copy or move
operand has exactly the transfer effect of the copy/move case: it equals
`propagate(operand → target)` and the corresponding `Use` assignment, the
target's bit ends up set iff the operand's is currently set, and the
operand's own bit is unchanged. -/
theorem unary_op_propagates_like_copy (s : Domain) (target p : Place) (op : ℕ) :
    handle_assignment s target (.UnaryOp op (.Copy p))
      = handle_assignment s target (.Use (.Copy p)) ∧
    handle_assignment s target (.UnaryOp op (.Move p))
      = handle_assignment s target (.Use (.Move p)) ∧
    handle_assignment s target (.UnaryOp op (.Copy p))
      = propagate s p.«local» target.«local» ∧
    handle_assignment s target (.UnaryOp op (.Move p))
      = propagate s p.«local» target.«local» ∧
    (target.«local» ∈ handle_assignment s target (.UnaryOp op (.Copy p)) ↔ p.«local» ∈ s) ∧
    (p.«local» ∈ handle_assignment s target (.UnaryOp op (.Copy p)) ↔ p.«local» ∈ s) ∧
    (target.«local» ∈ handle_assignment s target (.UnaryOp op (.Move p)) ↔ p.«local» ∈ s) ∧
    (p.«local» ∈ handle_assignment s target (.UnaryOp op (.Move p)) ↔ p.«local» ∈ s) := by
  refine ⟨rfl, rfl, rfl, rfl, ?_, ?_, ?_, ?_⟩ <;>
    simp [handle_assignment, mem_propagate]

/-- C8: seeding local 1 tainted and applying `propagate(1 → 2)` then
`propagate(3 → 1)` leaves local 2 tainted, local 1 untainted and local 3
still untainted, matching the reference transfer test. -/
theorem propagate_seed_scenario :
    2 ∈ propagate (propagate ({1} : Domain) 1 2) 3 1 ∧
    1 ∉ propagate (propagate ({1} : Domain) 1 2) 3 1 ∧
    3 ∉ propagate (propagate ({1} : Domain) 1 2) 3 1 ∧
    3 ∉ ({1} : Domain) := by
  decide

/-- C9: every transfer rule identifies a place solely by its base local:
stripping all projections from the target and from every operand place
leaves the effect of `handle_assignment` unchanged, for every rvalue shape
and state. -/
theorem place_taint_is_base_local (s : Domain) (target : Place) (rv : Rvalue) :
    handle_assignment s target rv = handle_assignment s (base target) (rvalue_base rv) := by
  cases rv with
  | Use o => cases o <;> rfl
  | BinaryOp op o1 o2 => cases o1 <;> cases o2 <;> rfl
  | UnaryOp op o => cases o <;> rfl
  | Ref p => rfl
  | Cast o => rfl
  | Aggregate ops => rfl

/-- C10: `target := UnaryOp(op, constant)` falls into the wildcard arm and
leaves the state exactly as it was (the target's bit is not cleared),
whereas `target := constant` (Use of a constant) does clear the target's
bit. -/
theorem unary_op_constant_is_noop (s : Domain) (target : Place) (op c : ℕ) :
    handle_assignment s target (.UnaryOp op (.Constant c)) = s ∧
    target.«local» ∉ handle_assignment s target (.Use (.Constant c)) :=
  ⟨rfl, by simp [handle_assignment, kill]⟩

end Taint
